import Mathlib

/-!
# bioLEC — landscape elevational connectivity: formal model

The repository's visible content is notebook-based usage of an external
`bioLEC.landscapeConnectivity` object.  The algorithmic core (grid model,
niche binning, connectivity graph, shortest-path closeness, result
aggregation) is not present in the sources, so it is modelled here from the
specification's words.  The grid-preparation notebook's CSV writing and
point-count arithmetic are embedded from the sources directly.

Conventions: elevations, spacings and weights are rationals; machine floats
are modelled by exact arithmetic.  Node `i` of an `nx × ny` grid has row
`i / nx` and column `i % nx`.  Shortest paths are computed by iterated
relaxation (Bellman–Ford), an executable equivalent of the specification's
priority-queue search on non-negative weights; `none` stands for an
unreachable node (infinite distance).
-/

namespace BioLEC

/-- Modelled from the spec: the immutable elevation grid (§3 Grid) — width
`nx`, height `ny`, spacing `dx`, elevation `Z` indexed by node number.
`Z` is total on `ℕ`; only indices below `nx*ny` are grid nodes. -/
structure Grid where
  nx : ℕ
  ny : ℕ
  dx : ℚ
  Z : ℕ → ℚ

/-- Modelled from the spec: the recognized configuration options (§6) with
their documented defaults. -/
structure LECConfig where
  periodic : Bool := false
  symmetric : Bool := false
  sigmap : ℚ := 1/10
  sigmav : Option ℚ := none
  diagonals : Bool := true
  sl : ℚ := -1000000

/-- Modelled from the spec: the weight policy left open by the spec (§9:
"treat the edge-weight formula as a pluggable policy") — a penalty applied
to the absolute elevation difference and a length factor for diagonal
edges (√2 in the real-valued account, see `edgeWeightR`). -/
structure WeightPolicy where
  penalty : ℚ → ℚ
  diagFactor : ℚ

/-- Modelled from the spec: the marine mask — a node is marine when its
elevation lies strictly below sea level (`Z < sl`). -/
def marine (g : Grid) (cfg : LECConfig) (i : ℕ) : Bool :=
  decide (g.Z i < cfg.sl)

/-- Modelled from the spec: the non-marine grid nodes, in index order. -/
def nonMarineNodes (g : Grid) (cfg : LECConfig) : List ℕ :=
  (List.range (g.nx * g.ny)).filter (fun i => !(marine g cfg i))

/-- The elevations of the non-marine nodes. -/
def nmZ (g : Grid) (cfg : LECConfig) : List ℚ :=
  (nonMarineNodes g cfg).map g.Z

/-- Maximum elevation over the non-marine nodes (0 when there are none). -/
def nmMax (g : Grid) (cfg : LECConfig) : ℚ :=
  (nmZ g cfg).foldl max ((nmZ g cfg).headD 0)

/-- Minimum elevation over the non-marine nodes (0 when there are none). -/
def nmMin (g : Grid) (cfg : LECConfig) : ℚ :=
  (nmZ g cfg).foldl min ((nmZ g cfg).headD 0)

/-- Modelled from the spec: the niche band half-width (§4.2 NicheBinner) —
`sigmav` when provided, else `sigmap * (max Z - min Z)` over non-marine
nodes. -/
def halfWidth (g : Grid) (cfg : LECConfig) : ℚ :=
  match cfg.sigmav with
  | some v => v
  | none => cfg.sigmap * (nmMax g cfg - nmMin g cfg)

/-- Lower end of node `c`'s niche band. -/
def bandLo (g : Grid) (cfg : LECConfig) (c : ℕ) : ℚ :=
  g.Z c - halfWidth g cfg

/-- Upper end of node `c`'s niche band. -/
def bandHi (g : Grid) (cfg : LECConfig) (c : ℕ) : ℚ :=
  g.Z c + halfWidth g cfg

/-- Modelled from the spec: the members of node `c`'s niche — the non-marine
grid nodes whose elevation falls in `c`'s band. -/
def nicheNodes (g : Grid) (cfg : LECConfig) (c : ℕ) : List ℕ :=
  (List.range (g.nx * g.ny)).filter
    (fun j => !(marine g cfg j) && decide (bandLo g cfg c ≤ g.Z j)
      && decide (g.Z j ≤ bandHi g cfg c))

/-- Row of node `i`. -/
def rowOf (g : Grid) (i : ℕ) : ℕ := i / g.nx

/-- Column of node `i`. -/
def colOf (g : Grid) (i : ℕ) : ℕ := i % g.nx

/-- Absolute difference on `ℕ`. -/
def natDist (a b : ℕ) : ℕ := max a b - min a b

/-- Index distance along one axis, wrapping around when the boundary is
periodic. -/
def wrapDist (per : Bool) (n a b : ℕ) : ℕ :=
  if per then min (natDist a b) (n - natDist a b) else natDist a b

/-- Modelled from the spec: grid adjacency (§4.3) — `some false` for an
axial neighbour, `some true` for a diagonal neighbour (when `diagonals`),
`none` otherwise.  `periodic` wraps opposite edges; the symmetric mode
mirrors edge nodes onto themselves, adding no distinct neighbour. -/
def adjType (g : Grid) (cfg : LECConfig) (i j : ℕ) : Option Bool :=
  let dc := wrapDist cfg.periodic g.nx (colOf g i) (colOf g j)
  let dr := wrapDist cfg.periodic g.ny (rowOf g i) (rowOf g j)
  if dc + dr = 1 then some false
  else if dc = 1 ∧ dr = 1 ∧ cfg.diagonals = true then some true
  else none

/-- Modelled from the spec: the weight of the edge `i → j` inside the niche
band `[lo, hi]`; `none` when the edge is not in the niche's graph (marine
endpoint, elevation outside the band, or not grid-adjacent).  Axial edges
cost `dx`, diagonal edges `diagFactor * dx`, both scaled by the
elevation-difference penalty. -/
def edgeW (pol : WeightPolicy) (g : Grid) (cfg : LECConfig) (lo hi : ℚ)
    (i j : ℕ) : Option ℚ :=
  if marine g cfg i || marine g cfg j then none
  else if decide (lo ≤ g.Z i) && decide (g.Z i ≤ hi)
      && decide (lo ≤ g.Z j) && decide (g.Z j ≤ hi) then
    match adjType g cfg i j with
    | some false => some (g.dx * pol.penalty |g.Z i - g.Z j|)
    | some true => some (pol.diagFactor * g.dx * pol.penalty |g.Z i - g.Z j|)
    | none => none
  else none

/-- Minimum of two optional distances, `none` being infinite. -/
def optMin : Option ℚ → Option ℚ → Option ℚ
  | none, b => b
  | some x, none => some x
  | some x, some y => some (min x y)

/-- One relaxation of the tentative distance of node `j` against every
tentative distance in `pairs`. -/
def relaxOne (w : ℕ → ℕ → Option ℚ) (pairs : List (ℕ × Option ℚ))
    (j : ℕ) (dj : Option ℚ) : Option ℚ :=
  pairs.foldl
    (fun acc kd =>
      match w kd.1 j, kd.2 with
      | some c, some dk => optMin acc (some (dk + c))
      | _, _ => acc) dj

/-- One Bellman–Ford relaxation round over the whole distance table. -/
def relax (w : ℕ → ℕ → Option ℚ) (pairs : List (ℕ × Option ℚ)) :
    List (ℕ × Option ℚ) :=
  pairs.map (fun jd => (jd.1, relaxOne w pairs jd.1 jd.2))

/-- Modelled from the spec: single-source shortest-path distances (§4.4)
from `src` to every node of `nodes`, by `nodes.length` relaxation rounds;
`none` marks an unreachable node. -/
def sssp (w : ℕ → ℕ → Option ℚ) (nodes : List ℕ) (src : ℕ) :
    List (ℕ × Option ℚ) :=
  (relax w)^[nodes.length]
    (nodes.map (fun j => (j, if j = src then some (0 : ℚ) else none)))

/-- The weight function of node `c`'s niche graph. -/
def nicheW (pol : WeightPolicy) (g : Grid) (cfg : LECConfig) (c : ℕ) :
    ℕ → ℕ → Option ℚ :=
  edgeW pol g cfg (bandLo g cfg c) (bandHi g cfg c)

/-- Shortest-path distances from `c` across `c`'s own niche. -/
def nicheDists (pol : WeightPolicy) (g : Grid) (cfg : LECConfig) (c : ℕ) :
    List (ℕ × Option ℚ) :=
  sssp (nicheW pol g cfg c) (nicheNodes g cfg c) c

/-- The finite shortest-path distances from `c` to the *other* members of
its niche: unreachable members contribute nothing. -/
def finiteDists (pol : WeightPolicy) (g : Grid) (cfg : LECConfig) (c : ℕ) :
    List ℚ :=
  (nicheDists pol g cfg c).filterMap
    (fun jd => if jd.1 = c then none else jd.2)

/-- Modelled from the spec: closeness (§4.4) — the reciprocal of the mean
shortest-path distance to the other reachable members of the node's niche;
`0` when no other member is reachable. -/
def closeness (pol : WeightPolicy) (g : Grid) (cfg : LECConfig) (c : ℕ) : ℚ :=
  if (finiteDists pol g cfg c).isEmpty then 0
  else ((finiteDists pol g cfg c).length : ℚ) / (finiteDists pol g cfg c).sum

/-- Modelled from the spec: the final LEC array (§4.5) — closeness for each
non-marine node, the configured `sl` sentinel for marine nodes. -/
def lecArray (pol : WeightPolicy) (g : Grid) (cfg : LECConfig) : List ℚ :=
  (List.range (g.nx * g.ny)).map
    (fun i => if marine g cfg i then cfg.sl else closeness pol g cfg i)

/-- Modelled from the spec: the nodes carrying an `EmptyNicheError` warning
(§7) — non-marine nodes whose niche band contains no other node. -/
def emptyNicheNodes (g : Grid) (cfg : LECConfig) : List ℕ :=
  (List.range (g.nx * g.ny)).filter
    (fun i => !(marine g cfg i)
      && ((nicheNodes g cfg i).filter (fun j => j != i)).isEmpty)

/-- Modelled from the spec: the error taxonomy (§7). -/
inductive LECError where
  | invalidConfig : LECError
  | shapeMismatch : LECError
  | notComputed : LECError
deriving DecidableEq

/-- Modelled from the spec: the outcome of a successful run — the LEC array
and the per-node `EmptyNicheError` warnings, which do not abort the run. -/
structure RunResult where
  lec : List ℚ
  emptyNiche : List ℕ
deriving DecidableEq

/-- Modelled from the spec: the whole run (§6, §7) — fails with
`InvalidConfig` on conflicting boundary modes, non-positive spacing or a
negative niche width, before any computation; otherwise computes the LEC
array and the empty-niche warnings. -/
def runLEC (pol : WeightPolicy) (g : Grid) (cfg : LECConfig) :
    Except LECError RunResult :=
  if cfg.periodic = true ∧ cfg.symmetric = true then
    Except.error LECError.invalidConfig
  else if g.dx ≤ 0 then Except.error LECError.invalidConfig
  else if halfWidth g cfg < 0 then Except.error LECError.invalidConfig
  else Except.ok ⟨lecArray pol g cfg, emptyNicheNodes g cfg⟩

/-- Whether a run completed successfully (exit code 0). -/
def runOk : Except LECError RunResult → Bool
  | Except.ok _ => true
  | Except.error _ => false

/-- The LEC array of a completed run (empty on failure). -/
def runLECValues : Except LECError RunResult → List ℚ
  | Except.ok r => r.lec
  | Except.error _ => []

/-- The empty-niche warnings of a completed run (empty on failure). -/
def runWarnings : Except LECError RunResult → List ℕ
  | Except.ok r => r.emptyNiche
  | Except.error _ => []

/-- The grid with every elevation shifted by the constant `c`. -/
def shiftGrid (g : Grid) (c : ℚ) : Grid :=
  { g with Z := fun i => g.Z i + c }

/-- The entries of `c`'s distance table for members other than `c` that
are reachable from `c` (finite distance). -/
def reachableEntries (pol : WeightPolicy) (g : Grid) (cfg : LECConfig)
    (c : ℕ) : List (ℕ × Option ℚ) :=
  (nicheDists pol g cfg c).filter (fun p => p.1 != c && p.2.isSome)

/-- The members of `c`'s niche, other than `c`, that are reachable from
`c` in the niche's graph. -/
def reachableOthers (pol : WeightPolicy) (g : Grid) (cfg : LECConfig)
    (c : ℕ) : List ℕ :=
  (reachableEntries pol g cfg c).map Prod.fst

/-- The shortest-path distances from `c` to its reachable niche
companions. -/
def reachableDists (pol : WeightPolicy) (g : Grid) (cfg : LECConfig)
    (c : ℕ) : List ℚ :=
  (reachableEntries pol g cfg c).map (fun p => p.2.getD 0)

/-- Modelled from the spec: the real-valued edge weight (§4.3) — the
physical length of the move (`√2 · dx` for a diagonal edge, `dx` for an
axial one) scaled by the elevation-difference penalty. -/
noncomputable def edgeWeightR (pen : ℝ → ℝ) (dx : ℝ) (diag : Bool)
    (z1 z2 : ℝ) : ℝ :=
  (if diag then Real.sqrt 2 * dx else dx) * pen |z1 - z2|

/-! ## Embedded from the grid-preparation notebook (source) -/

/-- Truncation toward zero on `ℚ`, the behaviour of numpy `astype(int)`. -/
def truncInt (q : ℚ) : ℤ :=
  if 0 ≤ q then ⌊q⌋ else ⌈q⌉

/-- One row of the CSV written by the grid-preparation notebook: `X` and
`Y` truncated to integers, `Z` kept as a float (exact here). -/
structure CSVRow where
  X : ℤ
  Y : ℤ
  Z : ℚ
deriving DecidableEq

/-- The rows written by
`df.to_csv(nameCSV, columns=[X, Y, Z], sep=' ', index=False, header=None)`:
one row per entry of `coords`, in order. -/
def prepRows (coords : List (ℚ × ℚ × ℚ)) : List CSVRow :=
  coords.map (fun c => ⟨truncInt c.1, truncInt c.2.1, c.2.2⟩)

/-- The layout of a flat CSV file: field delimiter, whether a header row is
present, whether a leading index column is present, and the data columns
in order. -/
structure CSVLayout where
  delim : Char
  hasHeader : Bool
  hasIndexCol : Bool
  columns : List String
deriving DecidableEq

/-- The layout produced by the notebook's `df.to_csv` call: space
separator, `header=None`, `index=False`, columns `X`, `Y`, `Z`. -/
def writtenLayout : CSVLayout :=
  ⟨' ', false, false, ["X", "Y", "Z"]⟩

/-- Modelled from the spec: the layout `landscapeConnectivity` reads by
default — headerless, space-delimited `X Y Z` rows (its documented
`delimiter` default is a single space). -/
def expectedLayout : CSVLayout :=
  ⟨' ', false, false, ["X", "Y", "Z"]⟩

/-- Element count of numpy `arange(start, stop, step)` for `step > 0`:
`⌈(stop - start) / step⌉`, clamped at zero. -/
def arangeLen (a b step : ℚ) : ℕ :=
  (⌈(b - a) / step⌉).toNat

/-- Exact-arithmetic model of numpy `arange(start, stop, step)`. -/
def arangeQ (a b step : ℚ) : List ℚ :=
  (List.range (arangeLen a b step)).map (fun k : ℕ => a + (k : ℚ) * step)

/-- Exact model of `meshgrid` + `ravel` + `vstack`: all `(x, y)` pairs,
row by row. -/
def meshCoords (xc yc : List ℚ) : List (ℚ × ℚ) :=
  (yc.map (fun y => xc.map (fun x => (x, y)))).flatten

/-! ## Concrete scenarios -/

/-- A concrete weight policy: penalty `1 + d` on the elevation difference
`d` (positive at `0`, strictly increasing), diagonal factor `2`. -/
def polX : WeightPolicy := ⟨fun d => 1 + d, 2⟩

/-- The 3×3 peak grid of the spec's `EmptyNicheError` scenario: centre
cell 1000, all others 0, spacing 1. -/
def gC6 : Grid := ⟨3, 3, 1, fun i => if i = 4 then 1000 else 0⟩

/-- Configuration of the `EmptyNicheError` scenario: `sigmav = 5`,
everything else at its default. -/
def cfgC6 : LECConfig := { sigmav := some 5 }

/-- The 4×4 flat grid of the spec's flat-grid scenario: all elevations
100, spacing 1. -/
def gC8 : Grid := ⟨4, 4, 1, fun _ => 100⟩

/-- Configuration of the flat-grid scenario: `sigmap = 0.5`,
`diagonals = false`, no marine cutoff (default `sl`). -/
def cfgC8 : LECConfig := { sigmap := 1/2, diagonals := false }

/-- A 1×2 grid whose node 0 is marine at `sl = 5` but not after a shift
by 10: elevations 0 and 10. -/
def gCx3 : Grid := ⟨2, 1, 1, fun i => if i = 0 then 0 else 10⟩

/-- Configuration with an active marine mask (`sl = 5`) and a band wide
enough to hold both nodes. -/
def cfgCx3 : LECConfig := { sigmav := some 100, sl := 5 }

/-- A 1×2 grid with one marine node (elevation −10 below `sl = 2`). -/
def gC1w : Grid := ⟨1, 2, 1, fun i => if i = 0 then -10 else 3⟩

/-- Configuration with sea level 2. -/
def cfgC1w : LECConfig := { sl := 2 }

/-- A flat 1×1 grid for the shift-invariance witness. -/
def gC3w : Grid := ⟨1, 1, 1, fun _ => 0⟩

/-- The all-default configuration. -/
def cfgDflt : LECConfig := {}

/-- A configuration with both boundary modes set, for the
mutual-exclusion scenario. -/
def cfgBoth : LECConfig := { periodic := true, symmetric := true }

/-- A configuration with a fixed niche width of 100 and no marine cutoff,
wide enough to hold both nodes of `gCx3`. -/
def cfgC5w : LECConfig := { sigmav := some 100 }

/-- The unit-cost axial weight function that the flat-grid scenario's
niche graphs reduce to (see `edgeW_gC8`). -/
def wGC8 : ℕ → ℕ → Option ℚ := fun i j =>
  match adjType gC8 cfgC8 i j with
  | some false => some 1
  | some true => some 2
  | none => none

end BioLEC

namespace BioLEC

/-! ## Helper lemmas -/

variable {g : Grid} {cfg : LECConfig} {c : ℚ}

lemma marine_shift (Hm : ∀ i, (g.Z i + c < cfg.sl ↔ g.Z i < cfg.sl)) (i : ℕ) :
    marine (shiftGrid g c) cfg i = marine g cfg i :=
  decide_eq_decide.mpr (Hm i)

lemma nonMarine_shift (Hm : ∀ i, (g.Z i + c < cfg.sl ↔ g.Z i < cfg.sl)) :
    nonMarineNodes (shiftGrid g c) cfg = nonMarineNodes g cfg := by
  unfold nonMarineNodes
  exact List.filter_congr (fun i _ => by rw [marine_shift Hm])

lemma foldl_max_add (l : List ℚ) (a : ℚ) :
    (l.map (fun x => x + c)).foldl max (a + c) = l.foldl max a + c := by
  induction l generalizing a with
  | nil => rfl
  | cons h t ih =>
    simp only [List.map_cons, List.foldl_cons]
    rw [max_add_add_right, ih]

lemma foldl_min_add (l : List ℚ) (a : ℚ) :
    (l.map (fun x => x + c)).foldl min (a + c) = l.foldl min a + c := by
  induction l generalizing a with
  | nil => rfl
  | cons h t ih =>
    simp only [List.map_cons, List.foldl_cons]
    rw [min_add_add_right, ih]

lemma nmZ_shift (Hm : ∀ i, (g.Z i + c < cfg.sl ↔ g.Z i < cfg.sl)) :
    nmZ (shiftGrid g c) cfg = (nmZ g cfg).map (fun x => x + c) := by
  unfold nmZ
  rw [nonMarine_shift Hm, List.map_map]
  rfl

lemma nmRange_shift (Hm : ∀ i, (g.Z i + c < cfg.sl ↔ g.Z i < cfg.sl)) :
    nmMax (shiftGrid g c) cfg - nmMin (shiftGrid g c) cfg =
      nmMax g cfg - nmMin g cfg := by
  unfold nmMax nmMin
  rw [nmZ_shift Hm]
  cases hl : nmZ g cfg with
  | nil => simp
  | cons h t =>
    simp only [List.map_cons, List.headD_cons, List.foldl_cons, max_self,
      min_self]
    rw [foldl_max_add t h, foldl_min_add t h]
    ring

lemma halfWidth_shift (Hm : ∀ i, (g.Z i + c < cfg.sl ↔ g.Z i < cfg.sl)) :
    halfWidth (shiftGrid g c) cfg = halfWidth g cfg := by
  unfold halfWidth
  cases cfg.sigmav with
  | some v => rfl
  | none => rw [nmRange_shift Hm]

lemma bandLo_shift (Hm : ∀ i, (g.Z i + c < cfg.sl ↔ g.Z i < cfg.sl)) (j : ℕ) :
    bandLo (shiftGrid g c) cfg j = bandLo g cfg j + c := by
  unfold bandLo
  rw [halfWidth_shift Hm]
  show g.Z j + c - halfWidth g cfg = _
  ring

lemma bandHi_shift (Hm : ∀ i, (g.Z i + c < cfg.sl ↔ g.Z i < cfg.sl)) (j : ℕ) :
    bandHi (shiftGrid g c) cfg j = bandHi g cfg j + c := by
  unfold bandHi
  rw [halfWidth_shift Hm]
  show g.Z j + c + halfWidth g cfg = _
  ring

lemma decide_add_le_add : ∀ a b : ℚ, decide (a + c ≤ b + c) = decide (a ≤ b) :=
  fun a b => decide_eq_decide.mpr (by constructor <;> intro <;> linarith)

lemma nicheNodes_shift (Hm : ∀ i, (g.Z i + c < cfg.sl ↔ g.Z i < cfg.sl))
    (cn : ℕ) :
    nicheNodes (shiftGrid g c) cfg cn = nicheNodes g cfg cn := by
  unfold nicheNodes
  refine List.filter_congr (fun j _ => ?_)
  have hz : (shiftGrid g c).Z j = g.Z j + c := rfl
  rw [marine_shift Hm, bandLo_shift Hm, bandHi_shift Hm, hz,
    decide_add_le_add, decide_add_le_add]

lemma nicheW_shift (pol : WeightPolicy)
    (Hm : ∀ i, (g.Z i + c < cfg.sl ↔ g.Z i < cfg.sl)) (cn : ℕ) :
    nicheW pol (shiftGrid g c) cfg cn = nicheW pol g cfg cn := by
  funext i j
  show edgeW pol (shiftGrid g c) cfg (bandLo (shiftGrid g c) cfg cn)
      (bandHi (shiftGrid g c) cfg cn) i j = _
  unfold edgeW
  rw [marine_shift Hm i, marine_shift Hm j, bandLo_shift Hm, bandHi_shift Hm]
  have hzi : (shiftGrid g c).Z i = g.Z i + c := rfl
  have hzj : (shiftGrid g c).Z j = g.Z j + c := rfl
  rw [hzi, hzj, decide_add_le_add, decide_add_le_add, decide_add_le_add,
    decide_add_le_add]
  have e2 : g.Z i + c - (g.Z j + c) = g.Z i - g.Z j := by ring
  rw [e2]
  rfl

lemma closeness_shift (pol : WeightPolicy)
    (Hm : ∀ i, (g.Z i + c < cfg.sl ↔ g.Z i < cfg.sl)) (cn : ℕ) :
    closeness pol (shiftGrid g c) cfg cn = closeness pol g cfg cn := by
  unfold closeness finiteDists nicheDists
  rw [nicheW_shift pol Hm, nicheNodes_shift Hm]

lemma lecArray_shift (pol : WeightPolicy)
    (Hm : ∀ i, (g.Z i + c < cfg.sl ↔ g.Z i < cfg.sl)) :
    lecArray pol (shiftGrid g c) cfg = lecArray pol g cfg := by
  unfold lecArray
  have hn : (shiftGrid g c).nx * (shiftGrid g c).ny = g.nx * g.ny := rfl
  rw [hn]
  refine List.map_congr_left (fun i _ => ?_)
  rw [marine_shift Hm, closeness_shift pol Hm]

lemma emptyNicheNodes_shift
    (Hm : ∀ i, (g.Z i + c < cfg.sl ↔ g.Z i < cfg.sl)) :
    emptyNicheNodes (shiftGrid g c) cfg = emptyNicheNodes g cfg := by
  unfold emptyNicheNodes
  have hn : (shiftGrid g c).nx * (shiftGrid g c).ny = g.nx * g.ny := rfl
  rw [hn]
  refine List.filter_congr (fun i _ => ?_)
  rw [marine_shift Hm, nicheNodes_shift Hm]

lemma runLEC_shift (pol : WeightPolicy)
    (Hm : ∀ i, (g.Z i + c < cfg.sl ↔ g.Z i < cfg.sl)) :
    runLEC pol (shiftGrid g c) cfg = runLEC pol g cfg := by
  unfold runLEC
  have hd : (shiftGrid g c).dx = g.dx := rfl
  rw [hd, halfWidth_shift Hm, lecArray_shift pol Hm, emptyNicheNodes_shift Hm]

lemma keys_relax (w : ℕ → ℕ → Option ℚ) (pairs : List (ℕ × Option ℚ)) :
    (relax w pairs).map Prod.fst = pairs.map Prod.fst := by
  simp [relax, List.map_map, Function.comp]

lemma keys_iterate (w : ℕ → ℕ → Option ℚ) (n : ℕ)
    (pairs : List (ℕ × Option ℚ)) :
    ((relax w)^[n] pairs).map Prod.fst = pairs.map Prod.fst := by
  induction n generalizing pairs with
  | zero => rfl
  | succ n ih => rw [Function.iterate_succ_apply, ih, keys_relax]

lemma keys_sssp (w : ℕ → ℕ → Option ℚ) (nodes : List ℕ) (src : ℕ) :
    (sssp w nodes src).map Prod.fst = nodes := by
  rw [sssp, keys_iterate, List.map_map]
  exact List.map_id' nodes

lemma keys_nicheDists (pol : WeightPolicy) (g : Grid) (cfg : LECConfig)
    (c : ℕ) :
    (nicheDists pol g cfg c).map Prod.fst = nicheNodes g cfg c := by
  unfold nicheDists
  exact keys_sssp _ _ _

lemma filterMap_if_eq_filter_map (c : ℕ) (l : List (ℕ × Option ℚ)) :
    l.filterMap (fun p => if p.1 = c then none else p.2) =
      (l.filter (fun p => p.1 != c && p.2.isSome)).map (fun p => p.2.getD 0) := by
  induction l with
  | nil => rfl
  | cons p t ih =>
    rcases hd : p.2 with _ | v <;> by_cases hc : p.1 = c <;>
      simp [List.filterMap_cons, List.filter_cons, hc, hd, ih]

lemma finiteDists_eq_reachable (pol : WeightPolicy) (g : Grid)
    (cfg : LECConfig) (c : ℕ) :
    finiteDists pol g cfg c = reachableDists pol g cfg c := by
  unfold finiteDists reachableDists reachableEntries
  exact filterMap_if_eq_filter_map c (nicheDists pol g cfg c)

lemma closeness_of_singleton_niche (pol : WeightPolicy) (g : Grid)
    (cfg : LECConfig) (c : ℕ) (h : nicheNodes g cfg c = [c]) :
    closeness pol g cfg c = 0 := by
  have hk : (nicheDists pol g cfg c).map Prod.fst = [c] := by
    rw [keys_nicheDists, h]
  unfold closeness
  rw [finiteDists_eq_reachable]
  unfold reachableDists reachableEntries
  cases hl : nicheDists pol g cfg c with
  | nil => rfl
  | cons p t =>
    rw [hl] at hk
    simp only [List.map_cons] at hk
    have hp1 : p.1 = c := (List.cons_eq_cons.mp hk).1
    have ht : t = [] := List.map_eq_nil_iff.mp (List.cons_eq_cons.mp hk).2
    subst ht
    simp [List.filter_cons, hp1]

lemma runLEC_ok (pol : WeightPolicy) (g : Grid) (cfg : LECConfig)
    (h1 : ¬(cfg.periodic = true ∧ cfg.symmetric = true)) (h2 : 0 < g.dx)
    (h3 : 0 ≤ halfWidth g cfg) :
    runLEC pol g cfg =
      Except.ok ⟨lecArray pol g cfg, emptyNicheNodes g cfg⟩ := by
  unfold runLEC
  rw [if_neg h1, if_neg (not_le.mpr h2), if_neg (not_lt.mpr h3)]

lemma mem_emptyNicheNodes (g : Grid) (cfg : LECConfig) (c : ℕ)
    (hlt : c < g.nx * g.ny) (hm : marine g cfg c = false)
    (h : nicheNodes g cfg c = [c]) : c ∈ emptyNicheNodes g cfg := by
  unfold emptyNicheNodes
  rw [List.mem_filter]
  refine ⟨List.mem_range.mpr hlt, ?_⟩
  rw [hm, h]
  simp

lemma lecArray_get (pol : WeightPolicy) (g : Grid) (cfg : LECConfig) (c : ℕ)
    (hlt : c < g.nx * g.ny) :
    (lecArray pol g cfg)[c]? =
      some (if marine g cfg c then cfg.sl else closeness pol g cfg c) := by
  unfold lecArray
  rw [List.getElem?_map, List.getElem?_range hlt]
  rfl

lemma arangeLen_exact (a s : ℚ) (n : ℕ) (hs : 0 < s) :
    arangeLen a (a + s * n) s = n := by
  unfold arangeLen
  have h1 : (a + s * n - a) / s = (n : ℚ) := by
    field_simp
  rw [h1, Int.ceil_natCast, Int.toNat_natCast]

lemma meshCoords_length (xc yc : List ℚ) :
    (meshCoords xc yc).length = yc.length * xc.length := by
  induction yc with
  | nil => simp [meshCoords]
  | cons h t ih =>
    simp only [meshCoords, List.map_cons, List.flatten_cons,
      List.length_append, List.length_map, List.length_cons] at ih ⊢
    rw [ih]
    ring

end BioLEC

namespace BioLEC

/-! ## Scenario evaluation lemmas -/

lemma hw_gC8 : halfWidth gC8 cfgC8 = 0 := by decide!

lemma bandLo_gC8 (c : ℕ) : bandLo gC8 cfgC8 c = 100 := by
  unfold bandLo
  rw [hw_gC8]
  show (100 : ℚ) - 0 = 100
  norm_num

lemma bandHi_gC8 (c : ℕ) : bandHi gC8 cfgC8 c = 100 := by
  unfold bandHi
  rw [hw_gC8]
  show (100 : ℚ) + 0 = 100
  norm_num

lemma nicheW_gC8 (c : ℕ) : nicheW polX gC8 cfgC8 c = edgeW polX gC8 cfgC8 100 100 := by
  unfold nicheW
  rw [bandLo_gC8 c, bandHi_gC8 c]

lemma niche_gC8 (c : ℕ) : nicheNodes gC8 cfgC8 c = List.range 16 := by
  unfold nicheNodes
  simp only [bandLo_gC8 c, bandHi_gC8 c]
  decide!


lemma edgeW_gC8 : edgeW polX gC8 cfgC8 100 100 = wGC8 := by
  funext i j
  unfold edgeW wGC8
  have hm : ∀ k, marine gC8 cfgC8 k = false := fun k => by
    unfold marine
    show decide ((100:ℚ) < -1000000) = false
    decide!
  rw [hm i, hm j]
  have hb : decide ((100:ℚ) ≤ 100) = true := by decide!
  have hz : ∀ k, gC8.Z k = 100 := fun _ => rfl
  simp only [hz, hb]
  have h1 : gC8.dx * polX.penalty 0 = 1 := by
    show (1:ℚ) * (1 + 0) = 1
    norm_num
  have h2 : polX.diagFactor * gC8.dx * polX.penalty 0 = 2 := by
    show (2:ℚ) * 1 * (1 + 0) = 2
    norm_num
  cases adjType gC8 cfgC8 i j with
  | none => rfl
  | some b =>
    cases b with
    | false => simp [h1]
    | true => simp [h2]


lemma sssp_of_fixed (w : ℕ → ℕ → Option ℚ) (nodes : List ℕ) (src : ℕ)
    (m : ℕ) (T : List (ℕ × Option ℚ))
    (h : (relax w)^[m]
      (nodes.map (fun j => (j, if j = src then some (0:ℚ) else none))) = T)
    (hfix : relax w T = T) (hm : m ≤ nodes.length) : sssp w nodes src = T := by
  rw [sssp, ← Nat.sub_add_cancel hm, Function.iterate_add_apply, h]
  exact Function.iterate_fixed hfix _

lemma dists_gC8_0 : nicheDists polX gC8 cfgC8 0 = [(0, some 0), (1, some 1), (2, some 2), (3, some 3), (4, some 1), (5, some 2), (6, some 3), (7, some 4), (8, some 2), (9, some 3), (10, some 4), (11, some 5), (12, some 3), (13, some 4), (14, some 5), (15, some 6)] := by
  unfold nicheDists
  rw [nicheW_gC8 0, niche_gC8 0, edgeW_gC8]
  exact sssp_of_fixed wGC8 (List.range 16) 0 6 _ (by decide!) (by decide!)
    (by decide)

lemma dists_gC8_3 : nicheDists polX gC8 cfgC8 3 = [(0, some 3), (1, some 2), (2, some 1), (3, some 0), (4, some 4), (5, some 3), (6, some 2), (7, some 1), (8, some 5), (9, some 4), (10, some 3), (11, some 2), (12, some 6), (13, some 5), (14, some 4), (15, some 3)] := by
  unfold nicheDists
  rw [nicheW_gC8 3, niche_gC8 3, edgeW_gC8]
  exact sssp_of_fixed wGC8 (List.range 16) 3 6 _ (by decide!) (by decide!)
    (by decide)

lemma dists_gC8_12 : nicheDists polX gC8 cfgC8 12 = [(0, some 3), (1, some 4), (2, some 5), (3, some 6), (4, some 2), (5, some 3), (6, some 4), (7, some 5), (8, some 1), (9, some 2), (10, some 3), (11, some 4), (12, some 0), (13, some 1), (14, some 2), (15, some 3)] := by
  unfold nicheDists
  rw [nicheW_gC8 12, niche_gC8 12, edgeW_gC8]
  exact sssp_of_fixed wGC8 (List.range 16) 12 6 _ (by decide!) (by decide!)
    (by decide)

lemma dists_gC8_15 : nicheDists polX gC8 cfgC8 15 = [(0, some 6), (1, some 5), (2, some 4), (3, some 3), (4, some 5), (5, some 4), (6, some 3), (7, some 2), (8, some 4), (9, some 3), (10, some 2), (11, some 1), (12, some 3), (13, some 2), (14, some 1), (15, some 0)] := by
  unfold nicheDists
  rw [nicheW_gC8 15, niche_gC8 15, edgeW_gC8]
  exact sssp_of_fixed wGC8 (List.range 16) 15 6 _ (by decide!) (by decide!)
    (by decide)

lemma dists_gC8_5 : nicheDists polX gC8 cfgC8 5 = [(0, some 2), (1, some 1), (2, some 2), (3, some 3), (4, some 1), (5, some 0), (6, some 1), (7, some 2), (8, some 2), (9, some 1), (10, some 2), (11, some 3), (12, some 3), (13, some 2), (14, some 3), (15, some 4)] := by
  unfold nicheDists
  rw [nicheW_gC8 5, niche_gC8 5, edgeW_gC8]
  exact sssp_of_fixed wGC8 (List.range 16) 5 4 _ (by decide!) (by decide!)
    (by decide)

lemma dists_gC8_6 : nicheDists polX gC8 cfgC8 6 = [(0, some 3), (1, some 2), (2, some 1), (3, some 2), (4, some 2), (5, some 1), (6, some 0), (7, some 1), (8, some 3), (9, some 2), (10, some 1), (11, some 2), (12, some 4), (13, some 3), (14, some 2), (15, some 3)] := by
  unfold nicheDists
  rw [nicheW_gC8 6, niche_gC8 6, edgeW_gC8]
  exact sssp_of_fixed wGC8 (List.range 16) 6 4 _ (by decide!) (by decide!)
    (by decide)

lemma dists_gC8_9 : nicheDists polX gC8 cfgC8 9 = [(0, some 3), (1, some 2), (2, some 3), (3, some 4), (4, some 2), (5, some 1), (6, some 2), (7, some 3), (8, some 1), (9, some 0), (10, some 1), (11, some 2), (12, some 2), (13, some 1), (14, some 2), (15, some 3)] := by
  unfold nicheDists
  rw [nicheW_gC8 9, niche_gC8 9, edgeW_gC8]
  exact sssp_of_fixed wGC8 (List.range 16) 9 4 _ (by decide!) (by decide!)
    (by decide)

lemma dists_gC8_10 : nicheDists polX gC8 cfgC8 10 = [(0, some 4), (1, some 3), (2, some 2), (3, some 3), (4, some 3), (5, some 2), (6, some 1), (7, some 2), (8, some 2), (9, some 1), (10, some 0), (11, some 1), (12, some 3), (13, some 2), (14, some 1), (15, some 2)] := by
  unfold nicheDists
  rw [nicheW_gC8 10, niche_gC8 10, edgeW_gC8]
  exact sssp_of_fixed wGC8 (List.range 16) 10 4 _ (by decide!) (by decide!)
    (by decide)

lemma cl_gC8_0 : closeness polX gC8 cfgC8 0 = 5/16 := by
  unfold closeness finiteDists
  rw [dists_gC8_0]
  decide!

lemma cl_gC8_3 : closeness polX gC8 cfgC8 3 = 5/16 := by
  unfold closeness finiteDists
  rw [dists_gC8_3]
  decide!

lemma cl_gC8_12 : closeness polX gC8 cfgC8 12 = 5/16 := by
  unfold closeness finiteDists
  rw [dists_gC8_12]
  decide!

lemma cl_gC8_15 : closeness polX gC8 cfgC8 15 = 5/16 := by
  unfold closeness finiteDists
  rw [dists_gC8_15]
  decide!

lemma cl_gC8_5 : closeness polX gC8 cfgC8 5 = 15/32 := by
  unfold closeness finiteDists
  rw [dists_gC8_5]
  decide!

lemma cl_gC8_6 : closeness polX gC8 cfgC8 6 = 15/32 := by
  unfold closeness finiteDists
  rw [dists_gC8_6]
  decide!

lemma cl_gC8_9 : closeness polX gC8 cfgC8 9 = 15/32 := by
  unfold closeness finiteDists
  rw [dists_gC8_9]
  decide!

lemma cl_gC8_10 : closeness polX gC8 cfgC8 10 = 15/32 := by
  unfold closeness finiteDists
  rw [dists_gC8_10]
  decide!

end BioLEC

namespace BioLEC

/-! ## Claim theorems -/

/-- Claim C1: a node whose elevation lies strictly below the configured sea
level is never a member of any niche, carries no edge of any niche graph
(as source or target), is excluded from the non-marine node set from which
sources are drawn, and its entry in the final LEC array is the configured
sentinel (`sl`). -/
theorem marine_mask_excluded (pol : WeightPolicy) (g : Grid)
    (cfg : LECConfig) (i : ℕ) (h : marine g cfg i = true) :
    (∀ c, i ∉ nicheNodes g cfg c) ∧
    (∀ lo hi j, edgeW pol g cfg lo hi i j = none ∧
      edgeW pol g cfg lo hi j i = none) ∧
    i ∉ nonMarineNodes g cfg ∧
    (i < g.nx * g.ny → (lecArray pol g cfg)[i]? = some cfg.sl) := by
  refine ⟨?_, ?_, ?_, ?_⟩
  · intro c hc
    simp only [nicheNodes, List.mem_filter] at hc
    rw [h] at hc
    simp at hc
  · intro lo hi j
    constructor <;> simp [edgeW, h]
  · intro hc
    simp only [nonMarineNodes, List.mem_filter] at hc
    rw [h] at hc
    simp at hc
  · intro hin
    rw [lecArray_get pol g cfg i hin, h]
    rfl

/-- Witness for C1: in a 1×2 grid with sea level 2, the node at elevation
−10 is marine, belongs to no niche, and its LEC entry is the sentinel 2. -/
theorem marine_mask_excluded_witness :
    marine gC1w cfgC1w 0 = true ∧ 0 ∉ nicheNodes gC1w cfgC1w 1 ∧
    (lecArray polX gC1w cfgC1w)[0]? = some 2 :=
  ⟨by decide!, (marine_mask_excluded polX gC1w cfgC1w 0 (by decide!)).1 1,
   (marine_mask_excluded polX gC1w cfgC1w 0 (by decide!)).2.2.2 (by decide)⟩

/-- Claim C2: a node `j` belongs to `c`'s niche exactly when it is a
non-marine grid node whose elevation is within the half-width `w` of `c`'s
own elevation, where `w` is `sigmav` when provided and otherwise
`sigmap * (max Z - min Z)` over the non-marine nodes. -/
theorem niche_band_halfwidth (g : Grid) (cfg : LECConfig) (c j : ℕ) :
    (j ∈ nicheNodes g cfg c ↔
      j < g.nx * g.ny ∧ marine g cfg j = false ∧
        |g.Z j - g.Z c| ≤ halfWidth g cfg) ∧
    (∀ v, cfg.sigmav = some v → halfWidth g cfg = v) ∧
    (cfg.sigmav = none →
      halfWidth g cfg = cfg.sigmap * (nmMax g cfg - nmMin g cfg)) := by
  refine ⟨?_, ?_, ?_⟩
  · simp only [nicheNodes, List.mem_filter, List.mem_range, Bool.and_eq_true,
      decide_eq_true_eq, Bool.not_eq_true', bandLo, bandHi, abs_le]
    constructor
    · rintro ⟨h1, ⟨h2, h3⟩, h4⟩
      exact ⟨h1, h2, by linarith, by linarith⟩
    · rintro ⟨h1, h2, h3, h4⟩
      exact ⟨h1, ⟨h2, by linarith⟩, by linarith⟩
  · intro v hv
    simp [halfWidth, hv]
  · intro hv
    simp [halfWidth, hv]

/-- Witness for C2: with `sigmav = 5` the half-width is 5, and corner node
8 of the 3×3 peak grid lies in node 0's niche. -/
theorem niche_band_halfwidth_witness :
    halfWidth gC6 cfgC6 = 5 ∧ 8 ∈ nicheNodes gC6 cfgC6 0 :=
  ⟨(niche_band_halfwidth gC6 cfgC6 0 8).2.1 5 rfl,
   (niche_band_halfwidth gC6 cfgC6 0 8).1.mpr (by decide!)⟩

/-- Counterexample for C3 as stated: with an active marine mask
(`sl = 5`), shifting every elevation of a 1×2 grid by 10 changes node 0
from marine (LEC entry = sentinel 5) to non-marine (LEC entry = a
closeness of 1/11), so the LEC array is not invariant under a global
additive shift. -/
theorem lec_shift_counterexample :
    (lecArray polX gCx3 cfgCx3)[0]? ≠
      (lecArray polX (shiftGrid gCx3 10) cfgCx3)[0]? := by decide!

/-- Claim C3 (amended): a global additive shift of all elevations leaves
the run result — the whole LEC array included — unchanged, provided the
shift does not move any node across the sea level `sl` (in particular
whenever the marine mask is disabled, as with the default sentinel
`sl`). -/
theorem lec_shift_invariant_amended (pol : WeightPolicy) (g : Grid)
    (cfg : LECConfig) (c : ℚ)
    (Hm : ∀ i, (g.Z i + c < cfg.sl ↔ g.Z i < cfg.sl)) :
    runLEC pol (shiftGrid g c) cfg = runLEC pol g cfg ∧
    lecArray pol (shiftGrid g c) cfg = lecArray pol g cfg :=
  ⟨runLEC_shift pol Hm, lecArray_shift pol Hm⟩

/-- Witness for amended C3: shifting the flat 1×1 default-configuration
grid by 7 changes nothing. -/
theorem lec_shift_invariant_amended_witness :
    runLEC polX (shiftGrid gC3w 7) cfgDflt = runLEC polX gC3w cfgDflt ∧
    lecArray polX (shiftGrid gC3w 7) cfgDflt = lecArray polX gC3w cfgDflt :=
  lec_shift_invariant_amended polX gC3w cfgDflt 7
    (fun i => by norm_num [gC3w, cfgDflt])

/-- Claim C4: the edge weight of a grid move is monotone in the absolute
elevation difference (given a monotone penalty), its distance component is
`dx` for an axial move and `√2 · dx` for a diagonal move, and it is the
product of that distance with the elevation-difference penalty. -/
theorem edge_weight_monotone (pen : ℝ → ℝ) (dx : ℝ) (diag : Bool)
    (z1 z2 z3 z4 : ℝ) (hpen : Monotone pen) (hdx : 0 ≤ dx)
    (h : |z1 - z2| ≤ |z3 - z4|) :
    edgeWeightR pen dx diag z1 z2 ≤ edgeWeightR pen dx diag z3 z4 ∧
    edgeWeightR pen dx false z1 z2 = dx * pen |z1 - z2| ∧
    edgeWeightR pen dx true z1 z2 = Real.sqrt 2 * dx * pen |z1 - z2| := by
  refine ⟨?_, rfl, rfl⟩
  unfold edgeWeightR
  apply mul_le_mul_of_nonneg_left (hpen h)
  cases diag <;> simp [hdx]

/-- Witness for C4: with the identity penalty and unit spacing, a diagonal
move over elevation gap 0 costs no more than one over gap 2. -/
theorem edge_weight_monotone_witness :
    edgeWeightR id 1 true 0 0 ≤ edgeWeightR id 1 true 0 2 ∧
    edgeWeightR id 1 false 0 0 = 1 * id |(0:ℝ) - 0| ∧
    edgeWeightR id 1 true 0 0 = Real.sqrt 2 * 1 * id |(0:ℝ) - 0| :=
  edge_weight_monotone id 1 true 0 0 0 2 monotone_id zero_le_one
    (by simp [abs_nonneg])

/-- Claim C5: a node's closeness is the reciprocal of the mean of the
shortest-path distances to the other *reachable* members of its own niche
(all of which are niche members); unreachable members are simply excluded
from that mean, and a node with no reachable niche companion has closeness
exactly 0. -/
theorem closeness_policy (pol : WeightPolicy) (g : Grid) (cfg : LECConfig)
    (c : ℕ) :
    reachableOthers pol g cfg c ⊆ nicheNodes g cfg c ∧
    (reachableOthers pol g cfg c = [] → closeness pol g cfg c = 0) ∧
    (reachableOthers pol g cfg c ≠ [] →
      closeness pol g cfg c = ((reachableOthers pol g cfg c).length : ℚ) /
        (reachableDists pol g cfg c).sum) := by
  refine ⟨?_, ?_, ?_⟩
  · intro j hj
    simp only [reachableOthers, List.mem_map] at hj
    obtain ⟨p, hp, rfl⟩ := hj
    have hmem : p ∈ nicheDists pol g cfg c := List.mem_of_mem_filter hp
    have : p.1 ∈ (nicheDists pol g cfg c).map Prod.fst :=
      List.mem_map_of_mem Prod.fst hmem
    rwa [keys_nicheDists] at this
  · intro h
    have he : reachableEntries pol g cfg c = [] := by
      have := congrArg List.length h
      simp only [reachableOthers, List.length_map] at this
      exact List.eq_nil_of_length_eq_zero this
    unfold closeness
    rw [finiteDists_eq_reachable]
    unfold reachableDists
    rw [he]
    rfl
  · intro h
    have he : reachableEntries pol g cfg c ≠ [] := by
      intro hn
      exact h (by simp [reachableOthers, hn])
    unfold closeness
    rw [finiteDists_eq_reachable]
    have h1 : (reachableDists pol g cfg c).isEmpty = false := by
      unfold reachableDists
      cases hq : reachableEntries pol g cfg c with
      | nil => exact absurd hq he
      | cons a l => rfl
    rw [h1]
    unfold reachableDists reachableOthers
    rw [List.length_map, List.length_map]
    simp

/-- Witness for C5: on a 1×1 grid the lone node has closeness 0, while on
a 1×2 grid with a wide band node 0 has a reachable companion and the
reciprocal-mean closeness. -/
theorem closeness_policy_witness :
    closeness polX gC3w cfgDflt 0 = 0 ∧
    closeness polX gCx3 cfgC5w 0 =
      ((reachableOthers polX gCx3 cfgC5w 0).length : ℚ) /
        (reachableDists polX gCx3 cfgC5w 0).sum :=
  ⟨(closeness_policy polX gC3w cfgDflt 0).2.1 (by decide!),
   (closeness_policy polX gCx3 cfgC5w 0).2.2 (by decide!)⟩

/-- Claim C6: a non-marine node whose niche contains no other node is
recorded in the per-node `EmptyNicheError` warning list, its closeness and
LEC entry are 0, and the run still completes successfully; in particular
the 3×3 grid with centre elevation 1000, all other cells 0 and
`sigmav = 5` completes with warning `[4]` and the peak's LEC entry 0. -/
theorem empty_niche_nonfatal :
    (∀ (pol : WeightPolicy) (g : Grid) (cfg : LECConfig) (c : ℕ),
      ¬(cfg.periodic = true ∧ cfg.symmetric = true) → 0 < g.dx →
      0 ≤ halfWidth g cfg → c < g.nx * g.ny → marine g cfg c = false →
      nicheNodes g cfg c = [c] →
      runLEC pol g cfg =
        Except.ok ⟨lecArray pol g cfg, emptyNicheNodes g cfg⟩ ∧
      c ∈ emptyNicheNodes g cfg ∧ closeness pol g cfg c = 0 ∧
      (lecArray pol g cfg)[c]? = some 0) ∧
    (runOk (runLEC polX gC6 cfgC6) = true ∧
      runWarnings (runLEC polX gC6 cfgC6) = [4] ∧
      (runLECValues (runLEC polX gC6 cfgC6))[4]? = some 0) := by
  constructor
  · intro pol g cfg c h1 h2 h3 hlt hm hn
    refine ⟨runLEC_ok pol g cfg h1 h2 h3,
      mem_emptyNicheNodes g cfg c hlt hm hn,
      closeness_of_singleton_niche pol g cfg c hn, ?_⟩
    rw [lecArray_get pol g cfg c hlt, hm,
      closeness_of_singleton_niche pol g cfg c hn]
    rfl
  · refine ⟨by decide!, by decide!, by decide!⟩

/-- Witness for C6: the general statement applied to the concrete 3×3 peak
scenario. -/
theorem empty_niche_nonfatal_witness :
    closeness polX gC6 cfgC6 4 = 0 ∧ 4 ∈ emptyNicheNodes gC6 cfgC6 := by
  have h := empty_niche_nonfatal.1 polX gC6 cfgC6 4 (by decide) (by decide!)
    (by decide!) (by decide) (by decide!) (by decide!)
  exact ⟨h.2.2.1, h.2.1⟩

/-- Claim C7: a configuration with both `periodic` and `symmetric` set
fails with `InvalidConfig` before any computation — the run returns the
error and produces no result. -/
theorem boundary_modes_exclusive (pol : WeightPolicy) (g : Grid)
    (cfg : LECConfig) (h1 : cfg.periodic = true) (h2 : cfg.symmetric = true) :
    runLEC pol g cfg = Except.error LECError.invalidConfig := by
  simp [runLEC, h1, h2]

/-- Witness for C7: the concrete both-modes configuration fails. -/
theorem boundary_modes_exclusive_witness :
    runLEC polX gC6 cfgBoth = Except.error LECError.invalidConfig :=
  boundary_modes_exclusive polX gC6 cfgBoth rfl rfl

/-- Claim C8: on the 4×4 flat grid (all elevations 100, `dx = 1`,
`sigmap = 0.5`, no diagonals, no marine cutoff) every node's niche is the
whole grid, and every interior node's closeness strictly exceeds every
corner node's closeness. -/
theorem flat_grid_scenario :
    (∀ c ∈ List.range 16, nicheNodes gC8 cfgC8 c = List.range 16) ∧
    (∀ i ∈ ([5, 6, 9, 10] : List ℕ), ∀ j ∈ ([0, 3, 12, 15] : List ℕ),
      closeness polX gC8 cfgC8 j < closeness polX gC8 cfgC8 i) := by
  constructor
  · intro c _
    exact niche_gC8 c
  · intro i hi j hj
    simp only [List.mem_cons, List.not_mem_nil, or_false] at hi hj
    rcases hi with rfl | rfl | rfl | rfl <;>
      rcases hj with rfl | rfl | rfl | rfl <;>
      simp only [cl_gC8_0, cl_gC8_3, cl_gC8_12, cl_gC8_15, cl_gC8_5, cl_gC8_6,
        cl_gC8_9, cl_gC8_10] <;>
      norm_num

/-- Witness for C8: node 0's niche is the whole grid and corner node 0 has
strictly smaller closeness than interior node 5. -/
theorem flat_grid_scenario_witness :
    nicheNodes gC8 cfgC8 0 = List.range 16 ∧
    closeness polX gC8 cfgC8 0 < closeness polX gC8 cfgC8 5 :=
  ⟨flat_grid_scenario.1 0 (by decide),
   flat_grid_scenario.2 5 (by decide) 0 (by decide)⟩

/-- Claim C9: the grid-preparation notebook writes a headerless,
space-delimited, index-free CSV with columns `X Y Z` in that order — one
row per `coords` entry, `X` and `Y` truncated to integers, `Z` kept exact —
which is precisely the layout `landscapeConnectivity` reads by default. -/
theorem csv_layout_matches :
    writtenLayout = expectedLayout ∧
    (∀ coords : List (ℚ × ℚ × ℚ), (prepRows coords).length = coords.length) ∧
    (∀ (coords : List (ℚ × ℚ × ℚ)) (i : ℕ),
      (prepRows coords)[i]? =
        (coords[i]?).map (fun c => ⟨truncInt c.1, truncInt c.2.1, c.2.2⟩)) :=
  ⟨rfl, fun _ => List.length_map .., fun _ _ => List.getElem?_map ..⟩

/-- Claim C10: with exact (rational) arithmetic, the arange axes of the
grid-preparation notebook have exactly `nx` and `ny` elements for any
positive spacing, so the stacked coordinate array has exactly `nx * ny`
rows. -/
theorem point_count_exact (minX minY spacing : ℚ) (nx ny : ℕ)
    (hs : 0 < spacing) :
    (arangeQ minX (minX + spacing * nx) spacing).length = nx ∧
    (arangeQ minY (minY + spacing * ny) spacing).length = ny ∧
    (meshCoords (arangeQ minX (minX + spacing * nx) spacing)
      (arangeQ minY (minY + spacing * ny) spacing)).length = nx * ny := by
  have hx : (arangeQ minX (minX + spacing * nx) spacing).length = nx := by
    unfold arangeQ
    rw [List.length_map, List.length_range, arangeLen_exact minX spacing nx hs]
  have hy : (arangeQ minY (minY + spacing * ny) spacing).length = ny := by
    unfold arangeQ
    rw [List.length_map, List.length_range, arangeLen_exact minY spacing ny hs]
  refine ⟨hx, hy, ?_⟩
  rw [meshCoords_length, hx, hy, Nat.mul_comm]

/-- Witness for C10: spacing 2 with a 3×2 subsample gives 3, 2 and 6
points. -/
theorem point_count_exact_witness :
    (arangeQ 0 (0 + 2 * ((3:ℕ):ℚ)) 2).length = 3 ∧
    (arangeQ 1 (1 + 2 * ((2:ℕ):ℚ)) 2).length = 2 ∧
    (meshCoords (arangeQ 0 (0 + 2 * ((3:ℕ):ℚ)) 2)
      (arangeQ 1 (1 + 2 * ((2:ℕ):ℚ)) 2)).length = 3 * 2 :=
  point_count_exact 0 1 2 3 2 (by decide!)

end BioLEC
